import Mathlib

/-!
Verification of the sixtyfps C++ binding header
(`api/sixtyfps-cpp/include/sixtyfps.h`) against its specification.

The header is binding glue: it defines `run` (the runtime entry point),
`dummy_destory` (the no-op destructor for static-lifetime components) and
`make_item_node` (the constructor for item-tree nodes).  The opaque types
(`ComponentType`, `ComponentImpl`, `ItemVTable`) and the external renderer
entry point live outside this fragment; pointers to them are embedded as
natural-number addresses, `std::intptr_t` as `Int`, and `uint32_t` values
as their numeric value in `Nat` (the code performs no arithmetic on them,
so no wrap-around can occur).
-/

set_option autoImplicit false

namespace sixtyfps

/-- Address of an `ItemVTable` (opaque pointer, embedded as an address). -/
abbrev ItemVTablePtr := Nat

/-- Address of a `ComponentType` descriptor (opaque pointer). -/
abbrev ComponentTypePtr := Nat

/-- Address of a type-erased `ComponentImpl` instance (opaque pointer). -/
abbrev ComponentImplPtr := Nat

/-- The tag of the tagged-union `ItemTreeNode`.  `Item` appears in the
source (`ItemTreeNode::Tag::Item`); `DynamicTree` is the indirection tag
the tagged design implies. -/
inductive Tag where
  | Item
  | DynamicTree
deriving DecidableEq, Repr

/-- The `Item_Body` payload of an item node, exactly the four fields the
source stores: `{ offset, vtable, child_count, child_index }`. -/
structure Item_Body where
  offset : Int
  vtable : ItemVTablePtr
  child_count : Nat
  child_index : Nat
deriving DecidableEq, Repr

/-- The union part of `ItemTreeNode`.  Only the `Item_Body` arm is visible
in the fragment; the dynamic-tree arm's payload is not given there, so it
is embedded as a payload-free arm. -/
inductive ItemTreeNodeBody where
  | item (b : Item_Body)
  | dynamicTree
deriving DecidableEq, Repr

/-- `ItemTreeNode`: a tag plus a union body, mirroring the C layout
`ItemTreeNode { Tag tag; union { Item_Body item; ... }; }`.  As in C, the
type itself does not force the tag and the body arm to agree. -/
structure ItemTreeNode where
  tag : Tag
  body : ItemTreeNodeBody
deriving DecidableEq, Repr

/-- Reading the `Item_Body` fields back out of a node: defined exactly
when the body holds the item arm. -/
def ItemTreeNode.itemBody : ItemTreeNode → Option Item_Body
  | ⟨_, ItemTreeNodeBody.item b⟩ => some b
  | ⟨_, ItemTreeNodeBody.dynamicTree⟩ => none

/-- `make_item_node(offset, vtable, child_count, child_index)`: builds
`ItemTreeNode { Tag::Item, { Item_Body { offset, vtable, child_count,
child_index } } }`, exactly as the source does — a plain aggregate
construction, no checks. -/
def make_item_node (offset : Int) (vtable : ItemVTablePtr)
    (child_count : Nat) (child_index : Nat) : ItemTreeNode :=
  { tag := Tag.Item,
    body := ItemTreeNodeBody.item
      { offset := offset, vtable := vtable,
        child_count := child_count, child_index := child_index } }

/-- Observable program state, used to express that the binding functions
neither read nor write anything: a map from addresses to stored words. -/
structure GlobalState where
  mem : List (Nat × Int)
deriving DecidableEq, Repr

/-- `dummy_destory(const ComponentType *, ComponentImpl *) { }` — the
source body is empty, so in state-passing form it returns the state
untouched. -/
def dummy_destory (_ct : ComponentTypePtr) (_ci : ComponentImplPtr)
    (s : GlobalState) : GlobalState :=
  s

/-- State-passing view of `make_item_node`.  The source function is
`constexpr`, which in C++ rules out any access to mutable global state,
so the faithful effectful embedding threads the state through unchanged
and computes the node from the arguments alone. -/
def make_item_node_effectful (offset : Int) (vtable : ItemVTablePtr)
    (child_count : Nat) (child_index : Nat) (s : GlobalState) :
    ItemTreeNode × GlobalState :=
  (make_item_node offset vtable child_count child_index, s)

/-- A generated component class, as `run<Component>` sees it: the only
datum the template uses is the static member `Component::component_type`,
the address of the class-wide descriptor. -/
structure ComponentClass where
  component_type : ComponentTypePtr
deriving DecidableEq, Repr

/-- `reinterpret_cast<internal::ComponentImpl *>(c)`: a pointer
reinterpretation, which preserves the address. -/
def reinterpret_cast_component_impl (c : Nat) : ComponentImplPtr :=
  c

/-- One call into the external runtime, as emitted by this fragment.  The
only entry the fragment calls is
`sixtyfps_runtime_run_component_with_gl_renderer(descriptor, instance)`. -/
inductive RuntimeCall where
  | runWithGlRenderer (descriptor : ComponentTypePtr) (instance_ : ComponentImplPtr)
deriving DecidableEq, Repr

/-- `run<Component>(c)`: the body is the single statement
`sixtyfps_runtime_run_component_with_gl_renderer(&Component::component_type,
reinterpret_cast<ComponentImpl *>(c))`.  Embedded as the list of runtime
calls the body performs, in order. -/
def run (K : ComponentClass) (c : Nat) : List RuntimeCall :=
  [RuntimeCall.runWithGlRenderer K.component_type (reinterpret_cast_component_impl c)]

/-- The descriptor argument of each emitted runtime call. -/
def descriptorArgs (calls : List RuntimeCall) : List ComponentTypePtr :=
  calls.map (fun call => match call with
    | RuntimeCall.runWithGlRenderer d _ => d)

/-- Bound check for one node against a tree of `n` nodes: the child run
`[child_index, child_index + child_count)` stays within the node
sequence, i.e. `child_index + child_count ≤ n` (dynamic-tree nodes carry
no static child run). -/
def nodeRangeOk (n : Nat) (node : ItemTreeNode) : Bool :=
  match node.itemBody with
  | some b => decide (b.child_index + b.child_count ≤ n)
  | none => true

/-- Every node of the tree has its child run inside the sequence bounds. -/
def treeRangesOk (t : List ItemTreeNode) : Bool :=
  t.all (nodeRangeOk t.length)

/-- Events the windowing system feeds to the renderer's event loop. -/
inductive GlEvent where
  | close
  | input
  | redraw
deriving DecidableEq, Repr

/-- Modelled from the spec: the event loop of the external renderer
(`sixtyfps_runtime_run_component_with_gl_renderer` is only declared in
this fragment).  The loop processes events until termination (a window
close); `some ()` is the normal value-free return on termination, `none`
means control never comes back to the caller (the loop blocks for
ever). -/
def eventLoopModel : List GlEvent → Option Unit
  | [] => none
  | e :: rest => if e = GlEvent.close then some () else eventLoopModel rest

/-- Modelled from the spec: the external renderer entry point taking
`(descriptor, instance)`.  A renderer-initialization failure is a
fatal/abort condition — control does not return to the caller and no
error value is produced (`none`); otherwise the call blocks in the event
loop and returns, with no value, only on event-loop termination. -/
def gl_renderer_call_model (_descriptor : ComponentTypePtr)
    (_instance : ComponentImplPtr) (rendererInitOk : Bool)
    (events : List GlEvent) : Option Unit :=
  if rendererInitOk then eventLoopModel events else none

/-- Modelled from the spec: the runtime's tree walk (performed by the
external renderer, not by this fragment).  It visits a node, then
recurses into the children, the contiguous run
`[child_index, child_index + child_count)` of the node sequence, in
index order; at a `DynamicTree` node the runtime invokes its subtree
resolver, which the fragment leaves unspecified, so the walk records
only the node itself there.  Fuel bounds the recursion depth, since
nothing in the encoding itself prevents cyclic index ranges. -/
def walkFrom (t : List ItemTreeNode) : Nat → Nat → List Nat
  | 0, _ => []
  | fuel + 1, i =>
    match t.get? i with
    | none => []
    | some node =>
      match node.tag, node.body with
      | Tag.Item, ItemTreeNodeBody.item b =>
          i :: (List.range b.child_count).flatMap
            (fun k => walkFrom t fuel (b.child_index + k))
      | _, _ => [i]

/-- The full walk: start at the root, index 0, with enough fuel for any
tree whose depth is at most its node count. -/
def treeWalk (t : List ItemTreeNode) : List Nat :=
  walkFrom t (t.length + 1) 0

/-- The scenario tree of the spec: a root with `child_count = 2` and
`child_index = 1`, followed by two leaf item nodes at indices 1 and 2,
every node built with `make_item_node`. -/
def scenarioTree : List ItemTreeNode :=
  [make_item_node 0 0 2 1, make_item_node 0 0 0 0, make_item_node 0 0 0 0]

/-- Lifecycle states of an owned-lifetime component instance.  Modelled
from the spec: the fragment itself only contains the static-lifetime
no-op destructor (`dummy_destory`), and flags the owned variant as
missing; the spec's destruction policy supplies its rules. -/
inductive LifeState where
  | created
  | running
  | returned
  | destroyed
deriving DecidableEq, Repr

/-- Lifecycle events on an owned instance: the runtime entry point is
entered (`startRun`) and returns (`endRun`), the runtime dispatches on
the instance from inside the event loop (`dispatch`), and the owner
invokes the descriptor's destroy operation (`destroy`). -/
inductive LifeEvent where
  | startRun
  | dispatch
  | endRun
  | destroy
deriving DecidableEq, Repr

/-- Modelled from the spec's destruction policy and lifecycle rule: an
instance is live from creation until `run` returns; dispatch happens
only while `run` is active; destruction of an owned instance happens
only after `run` has returned; a destroyed instance accepts nothing. -/
def lifeStep : LifeState → LifeEvent → Option LifeState
  | LifeState.created, LifeEvent.startRun => some LifeState.running
  | LifeState.running, LifeEvent.dispatch => some LifeState.running
  | LifeState.running, LifeEvent.endRun => some LifeState.returned
  | LifeState.returned, LifeEvent.destroy => some LifeState.destroyed
  | _, _ => none

/-- Runs a sequence of lifecycle events from a state; `none` when some
event violates the lifecycle rules. -/
def execTrace (s : LifeState) : List LifeEvent → Option LifeState
  | [] => some s
  | e :: rest =>
    match lifeStep s e with
    | some s' => execTrace s' rest
    | none => none

/-- Whether the instance memory is still allocated in a state: the
destroy operation of an owned descriptor releases it, so exactly the
destroyed state is deallocated. -/
def instanceAllocated : LifeState → Bool
  | LifeState.destroyed => false
  | _ => true

end sixtyfps

namespace sixtyfps

/-- C1: `make_item_node` is total (a plain Lean function on all tuples),
performs no validation, and round-trips: the constructed node carries tag
`Item` and reading the body back yields exactly the offset, descriptor,
child count and child index provided. -/
theorem C1_make_item_node_round_trip (offset : Int) (vtable : ItemVTablePtr)
    (child_count : Nat) (child_index : Nat) :
    (make_item_node offset vtable child_count child_index).tag = Tag.Item ∧
    (make_item_node offset vtable child_count child_index).itemBody =
      some { offset := offset, vtable := vtable,
             child_count := child_count, child_index := child_index } := by
  exact ⟨rfl, rfl⟩

/-- C2: `run(c)` is exactly one call to the GL-renderer entry point, with
the class descriptor `Component::component_type` and the instance pointer
reinterpreted as a `ComponentImpl` pointer (an address-preserving cast);
it performs no other runtime call. -/
theorem C2_run_is_single_gl_renderer_call (K : ComponentClass) (c : Nat) :
    run K c =
      [RuntimeCall.runWithGlRenderer K.component_type
        (reinterpret_cast_component_impl c)] ∧
    (run K c).length = 1 ∧
    reinterpret_cast_component_impl c = c := by
  exact ⟨rfl, rfl, rfl⟩

/-- C5: the destruction operation of a static-lifetime component,
`dummy_destory`, is an idempotent no-op: iterating it any number of
times, with any descriptor and instance pointers, leaves the observable
state exactly as it was. -/
theorem C5_dummy_destory_noop (ct : ComponentTypePtr) (ci : ComponentImplPtr)
    (s : GlobalState) (k : Nat) :
    dummy_destory ct ci s = s ∧ (dummy_destory ct ci)^[k] s = s := by
  refine ⟨rfl, Function.iterate_fixed rfl k⟩

/-- C8: `make_item_node` is side-effect-free and deterministic: in the
state-passing view the returned node does not depend on the ambient
state, two calls with equal arguments return equal nodes, and the state
after the call is the state before it. -/
theorem C8_make_item_node_pure (offset : Int) (vtable : ItemVTablePtr)
    (child_count : Nat) (child_index : Nat) (s₁ s₂ : GlobalState) :
    (make_item_node_effectful offset vtable child_count child_index s₁).1 =
      (make_item_node_effectful offset vtable child_count child_index s₂).1 ∧
    (make_item_node_effectful offset vtable child_count child_index s₁).2 = s₁ := by
  exact ⟨rfl, rfl⟩

/-- C9: every node the exposed constructor builds carries the tag `Item`;
no `DynamicTree` indirection node can be produced through it. -/
theorem C9_make_item_node_always_item_tag (offset : Int) (vtable : ItemVTablePtr)
    (child_count : Nat) (child_index : Nat) :
    (make_item_node offset vtable child_count child_index).tag = Tag.Item ∧
    (make_item_node offset vtable child_count child_index).tag ≠ Tag.DynamicTree := by
  exact ⟨rfl, fun h => Tag.noConfusion h⟩

/-- C10: the descriptor handed to the renderer is determined solely by
the component class (it is always `Component::component_type`), never by
the instance pointer: any two calls for the same class pass the same
descriptor. -/
theorem C10_descriptor_determined_by_class (K : ComponentClass) (c₁ c₂ : Nat) :
    descriptorArgs (run K c₁) = [K.component_type] ∧
    descriptorArgs (run K c₁) = descriptorArgs (run K c₂) := by
  exact ⟨rfl, rfl⟩

lemma eventLoopModel_some_iff (events : List GlEvent) :
    eventLoopModel events = some () ↔ GlEvent.close ∈ events := by
  induction events with
  | nil => simp [eventLoopModel]
  | cons e rest ih =>
    by_cases he : e = GlEvent.close
    · subst he; simp [eventLoopModel]
    · have he' : GlEvent.close ≠ e := fun h => he h.symm
      simp [eventLoopModel, he, he', ih]

/-- C3: the runtime entry call never returns an error value: it returns
precisely when renderer initialization succeeded and the event loop
terminates, and then it returns no value at all (the value-free `()`);
initialization failure is a fatal condition, not a returned error. -/
theorem C3_run_returns_void_only_on_termination (d : ComponentTypePtr)
    (i : ComponentImplPtr) (rendererInitOk : Bool) (events : List GlEvent) :
    gl_renderer_call_model d i rendererInitOk events = some () ↔
      rendererInitOk = true ∧ GlEvent.close ∈ events := by
  cases rendererInitOk <;>
    simp [gl_renderer_call_model, eventLoopModel_some_iff]

/-- C4 counterexample: a one-node tree whose single node was built with
`make_item_node` with `child_index = 1` and `child_count = 1` has a
child range `[1, 2)` escaping the bounds `[0, 1)` — construction
performs no validation, so it can produce such a node. -/
theorem C4_counterexample_escaping_range :
    treeRangesOk [make_item_node 0 0 1 1] = false := by
  decide

/-- C4 amended: the bound holds for trees whose nodes were all built
with arguments respecting it — for any tree of N nodes, each built with
`make_item_node` with `child_index + child_count ≤ N`, every node's
child range lies within the sequence bounds; construction itself does
not enforce this. -/
theorem C4_amended_ranges_ok_of_bounded_args (t : List ItemTreeNode)
    (h : ∀ node ∈ t, ∃ offset vtable cc ci,
      node = make_item_node offset vtable cc ci ∧ ci + cc ≤ t.length) :
    treeRangesOk t = true := by
  simp only [treeRangesOk, List.all_eq_true]
  intro node hnode
  obtain ⟨offset, vtable, cc, ci, rfl, hle⟩ := h node hnode
  simp [nodeRangeOk, make_item_node, ItemTreeNode.itemBody, hle]

theorem C4_amended_witness :
    treeRangesOk [make_item_node 2 3 1 1, make_item_node 4 5 0 0] = true := by
  apply C4_amended_ranges_ok_of_bounded_args
  intro node hnode
  rcases (by simpa using hnode :
      node = make_item_node 2 3 1 1 ∨ node = make_item_node 4 5 0 0) with h | h
  · exact ⟨2, 3, 1, 1, h, by decide⟩
  · exact ⟨4, 5, 0, 0, h, by decide⟩

/-- C6: on the scenario tree (root with `child_count = 2`,
`child_index = 1`, then two leaves at indices 1 and 2) the walk visits
exactly 3 nodes, the root first, then its two children in index
order. -/
theorem C6_scenario_walk_visits_root_then_children :
    treeWalk scenarioTree = [0, 1, 2] ∧ (treeWalk scenarioTree).length = 3 := by
  exact ⟨rfl, rfl⟩

lemma lifeStep_destroyed (e : LifeEvent) :
    lifeStep LifeState.destroyed e = none := by
  cases e <;> rfl

lemma execTrace_destroyed (t : List LifeEvent) (s : LifeState)
    (h : execTrace LifeState.destroyed t = some s) :
    t = [] ∧ s = LifeState.destroyed := by
  cases t with
  | nil =>
    refine ⟨rfl, ?_⟩
    simpa [execTrace] using h.symm
  | cons e rest =>
    simp [execTrace, lifeStep_destroyed] at h

lemma exec_destroy_shape (t : List LifeEvent) : ∀ s₀ s : LifeState,
    execTrace s₀ t = some s → LifeEvent.destroy ∈ t →
    ∃ t₁, t = t₁ ++ [LifeEvent.destroy] ∧ LifeEvent.destroy ∉ t₁ ∧
      s = LifeState.destroyed ∧
      ((s₀ = LifeState.created ∨ s₀ = LifeState.running) →
        LifeEvent.endRun ∈ t₁) := by
  induction t with
  | nil =>
    intro s₀ s h hm
    cases hm
  | cons e rest ih =>
    intro s₀ s h hm
    cases s₀ <;> cases e <;> simp only [execTrace, lifeStep] at h <;>
      try exact Option.noConfusion h
    case created.startRun =>
      have hm' : LifeEvent.destroy ∈ rest := by
        rcases List.mem_cons.mp hm with h' | h'
        · exact absurd h' (by decide)
        · exact h'
      obtain ⟨t₁, ht, hnd, hs, hend⟩ := ih LifeState.running s h hm'
      refine ⟨LifeEvent.startRun :: t₁, by simp [ht], ?_, hs, ?_⟩
      · simp only [List.mem_cons, not_or]
        exact ⟨by decide, hnd⟩
      · intro _
        exact List.mem_cons_of_mem _ (hend (Or.inr rfl))
    case running.dispatch =>
      have hm' : LifeEvent.destroy ∈ rest := by
        rcases List.mem_cons.mp hm with h' | h'
        · exact absurd h' (by decide)
        · exact h'
      obtain ⟨t₁, ht, hnd, hs, hend⟩ := ih LifeState.running s h hm'
      refine ⟨LifeEvent.dispatch :: t₁, by simp [ht], ?_, hs, ?_⟩
      · simp only [List.mem_cons, not_or]
        exact ⟨by decide, hnd⟩
      · intro _
        exact List.mem_cons_of_mem _ (hend (Or.inr rfl))
    case running.endRun =>
      have hm' : LifeEvent.destroy ∈ rest := by
        rcases List.mem_cons.mp hm with h' | h'
        · exact absurd h' (by decide)
        · exact h'
      obtain ⟨t₁, ht, hnd, hs, _⟩ := ih LifeState.returned s h hm'
      refine ⟨LifeEvent.endRun :: t₁, by simp [ht], ?_, hs, ?_⟩
      · simp only [List.mem_cons, not_or]
        exact ⟨by decide, hnd⟩
      · intro _
        exact List.mem_cons_self _ _
    case returned.destroy =>
      obtain ⟨hrest, hs⟩ := execTrace_destroyed rest s h
      subst hrest
      refine ⟨[], by simp, by simp, hs, ?_⟩
      rintro (h' | h') <;> exact LifeState.noConfusion h'

/-- C7: for an owned-lifetime descriptor, in every lifecycle-respecting
event trace that contains a destroy, the destroy occurs exactly once, it
is the final event (so never concurrent with, or before the end of,
dispatch on the instance), it comes only after the runtime entry point
has returned, and it leaves the instance memory released. -/
theorem C7_owned_destroy_once_after_return (t : List LifeEvent) (s : LifeState)
    (h : execTrace LifeState.created t = some s)
    (hd : LifeEvent.destroy ∈ t) :
    t.count LifeEvent.destroy = 1 ∧
    (∃ t₁, t = t₁ ++ [LifeEvent.destroy] ∧ LifeEvent.endRun ∈ t₁) ∧
    s = LifeState.destroyed ∧ instanceAllocated s = false := by
  obtain ⟨t₁, ht, hnd, hs, hend⟩ :=
    exec_destroy_shape t LifeState.created s h hd
  have hcount : t.count LifeEvent.destroy = 1 := by
    rw [ht, List.count_append]
    rw [List.count_eq_zero_of_not_mem hnd]
    rfl
  refine ⟨hcount, ⟨t₁, ht, hend (Or.inl rfl)⟩, hs, ?_⟩
  rw [hs]
  rfl

theorem C7_owned_destroy_once_after_return_witness :
    execTrace LifeState.created
      [LifeEvent.startRun, LifeEvent.dispatch, LifeEvent.endRun,
        LifeEvent.destroy] = some LifeState.destroyed ∧
    ([LifeEvent.startRun, LifeEvent.dispatch, LifeEvent.endRun,
        LifeEvent.destroy].count LifeEvent.destroy = 1 ∧
      (∃ t₁, [LifeEvent.startRun, LifeEvent.dispatch, LifeEvent.endRun,
          LifeEvent.destroy] = t₁ ++ [LifeEvent.destroy] ∧
        LifeEvent.endRun ∈ t₁) ∧
      LifeState.destroyed = LifeState.destroyed ∧
      instanceAllocated LifeState.destroyed = false) :=
  ⟨by decide,
    C7_owned_destroy_once_after_return _ _ (by decide) (by decide)⟩

end sixtyfps
